import Mathlib

/-!
Shallow embedding of the `retrier` Go package (source: retrier.go of the
current `(error, bool)` version of the repository).

Modelling conventions:
* `time.Duration` is an `Int` counting nanoseconds (`time.Millisecond = 1000000`).
* Go `error` values are modelled by the inductive `GoError`; an `error`-typed
  value (which may be `nil`) is an `Option GoError`.
  `fmt.Errorf("...: %w", err)` is modelled by `GoError.wrap`, whose `message`
  is the format prefix followed by the wrapped error's message and whose
  `unwrap` (Go `errors.Unwrap`) returns the wrapped error.
* A `context.Context`, as observed by the retrier, is modelled by the oracle
  `Context.doneAt : Nat → Option GoError`: `doneAt i = some e` means that the
  context's `Done` channel fires (with `ctx.Err() = e`) before the timer during
  the i-th suspension of the run; `doneAt i = none` means the full delay of the
  i-th suspension elapses first.  This abstracts the timer-vs-cancellation race
  inside `sleep` into an explicit schedule of its outcomes.
* The caller-supplied work closure is modelled by a function
  `work : Context → Nat → Option GoError × Bool` giving the result of its i-th
  invocation.  In `RunCtx` the i-th invocation of `work` happens exactly when
  the `retries` counter equals `i` (the counter is incremented once per loop
  iteration that does not return), so indexing invocations by `retries` is
  faithful to the loop.
* The `for` loop of `RunCtx` is unrolled with an explicit fuel parameter;
  `none` means the fuel was exhausted before the loop returned (the Go loop
  can genuinely run forever, e.g. with `max = -1` and always-retrying work).
-/

namespace Retrier

/-- Go error values as the retrier observes them: a leaf error with a message,
or an error produced by `fmt.Errorf("<pre>%w", cause)` wrapping a cause. -/
inductive GoError where
  | mk (msg : String) : GoError
  | wrap (pre : String) (cause : GoError) : GoError
deriving DecidableEq, Repr

/-- The `Error()` string of a Go error. -/
def GoError.message : GoError → String
  | .mk m => m
  | .wrap p c => p ++ c.message

/-- Go `errors.Unwrap`: a `%w`-wrapped error exposes its cause, a leaf does not. -/
def GoError.unwrap : GoError → Option GoError
  | .mk _ => none
  | .wrap _ c => some c

/-- Go `time.Millisecond` in nanoseconds. -/
def Millisecond : Int := 1000000

/-- Go `time.Second` in nanoseconds. -/
def Second : Int := 1000000000

/-- Source `ConstantDelay`:
`millis := delay; return time.Duration(millis) * time.Millisecond`
where `delay` is already a `time.Duration` (nanoseconds). -/
def ConstantDelay (delay : Int) : Nat → Int :=
  fun _ => delay * Millisecond

/-- Source `LinearDelay`: `return step + time.Duration(retries)*step`. -/
def LinearDelay (step : Int) : Nat → Int :=
  fun retries => step + (retries : Int) * step

/-- The cancellation token as the retrier observes it; see the header comment. -/
structure Context where
  doneAt : Nat → Option GoError

/-- Go `context.Background()`: a token that never fires. -/
def background : Context := ⟨fun _ => none⟩

/-- Source `sleep(ctx, dur)` during the i-th suspension of a run: returns `nil`
if the timer of duration `dur` wins the `select`, and `ctx.Err()` if the
context's `Done` channel wins.  Which one wins is given by the oracle
`ctx.doneAt i`; the duration itself does not influence the returned value. -/
def sleep (ctx : Context) (i : Nat) (_dur : Int) : Option GoError :=
  ctx.doneAt i

/-- Which branch of `RunCtx` produced the returned error (verification
instrumentation; the Go function returns only the error value). -/
inductive TermKind where
  | returned   -- work said not to retry; its error is returned verbatim
  | budget     -- `fmt.Errorf("failed after max retries: %w", err)` branch
  | cancelled  -- `sleep` returned the context's error
deriving DecidableEq, Repr

/-- Observable outcome of a terminating `RunCtx` run: the returned error,
the number of work invocations performed, the durations of the completed
suspensions in order, and the branch that returned. -/
structure RunResult where
  err : Option GoError
  calls : Nat
  sleeps : List Int
  kind : TermKind
deriving DecidableEq, Repr

/-- The error built by `fmt.Errorf("failed after max retries: %w", err)`.
With a `nil` operand, `%w` renders as a plain verb error and nothing is
wrapped; the claims only exercise the non-nil case. -/
def wrapMaxRetries : Option GoError → GoError
  | some e => GoError.wrap "failed after max retries: " e
  | none => GoError.mk "failed after max retries: %!w(<nil>)"

/-- The `for` loop of `RunCtx`, with the current `retries` counter and the
durations of the suspensions completed so far as explicit state, and a fuel
bound on the number of iterations (`none` = fuel ran out, i.e. the loop did
not return within `fuel` iterations).  Loop body, from the source:

  err, ret := work(ctx)
  if !ret { return err }
  else if r.max != -1 && retries >= r.max {
    return fmt.Errorf("failed after max retries: %w", err) }
  else {
    err := r.sleep(ctx, r.delayf(retries))
    if err != nil { return err }
    retries++ } -/
def runCtxAux (max : Int) (delayf : Nat → Int) (ctx : Context)
    (work : Context → Nat → Option GoError × Bool) :
    Nat → Nat → List Int → Option RunResult
  | 0, _, _ => none
  | fuel + 1, retries, acc =>
    if (work ctx retries).2 = false then
      some ⟨(work ctx retries).1, retries + 1, acc, TermKind.returned⟩
    else if max ≠ -1 ∧ max ≤ (retries : Int) then
      some ⟨some (wrapMaxRetries (work ctx retries).1), retries + 1, acc,
        TermKind.budget⟩
    else
      match sleep ctx retries (delayf retries) with
      | some cerr => some ⟨some cerr, retries + 1, acc, TermKind.cancelled⟩
      | none => runCtxAux max delayf ctx work fuel (retries + 1)
          (acc ++ [delayf retries])

/-- Source `RunCtx`: the loop started with `retries := 0`. -/
def RunCtx (max : Int) (delayf : Nat → Int) (ctx : Context)
    (work : Context → Nat → Option GoError × Bool) (fuel : Nat) :
    Option RunResult :=
  runCtxAux max delayf ctx work fuel 0 []

/-- Source `Run`: `RunCtx` with the background context and the work closure
adapted to ignore the context argument. -/
def Run (max : Int) (delayf : Nat → Int)
    (work : Nat → Option GoError × Bool) (fuel : Nat) : Option RunResult :=
  RunCtx max delayf background (fun _ i => work i) fuel

/-- True when an outcome did not come from the cancellation branch. -/
def notCancelled : Option RunResult → Bool
  | some r => if r.kind = TermKind.cancelled then false else true
  | none => true

/-- The outcome of a run terminated either by the cancellation token (whose
error is returned) or by the work itself returning `shouldRetry = false` (whose
error is returned verbatim) — and in particular not by the budget branch. -/
def UnlimitedOutcome (ctx : Context)
    (work : Context → Nat → Option GoError × Bool) (r : RunResult) : Prop :=
  r.kind ≠ TermKind.budget ∧
  ((∃ j e, ctx.doneAt j = some e ∧ r.err = some e ∧
      r.kind = TermKind.cancelled) ∨
   (∃ j, (work ctx j).2 = false ∧ r.err = (work ctx j).1 ∧
      r.kind = TermKind.returned))

/-- Loop-exit lemma: when work says not to retry, the loop returns its error
verbatim in the same iteration. -/
theorem runCtxAux_returned (max : Int) (delayf : Nat → Int) (ctx : Context)
    (work : Context → Nat → Option GoError × Bool) (fuel retries : Nat)
    (acc : List Int) (hret : (work ctx retries).2 = false) :
    runCtxAux max delayf ctx work (fuel + 1) retries acc =
      some ⟨(work ctx retries).1, retries + 1, acc, TermKind.returned⟩ := by
  simp [runCtxAux, hret]

/-- Loop-exit lemma: when work wants a retry but the budget is exhausted, the
loop returns the wrapped error in the same iteration. -/
theorem runCtxAux_budget (max : Int) (delayf : Nat → Int) (ctx : Context)
    (work : Context → Nat → Option GoError × Bool) (fuel retries : Nat)
    (acc : List Int) (hret : (work ctx retries).2 = true)
    (h1 : max ≠ -1) (h2 : max ≤ (retries : Int)) :
    runCtxAux max delayf ctx work (fuel + 1) retries acc =
      some ⟨some (wrapMaxRetries (work ctx retries).1), retries + 1, acc,
        TermKind.budget⟩ := by
  simp [runCtxAux, hret, h1, h2]

/-- Loop-exit lemma: when work wants a retry, the budget allows it, and the
context fires during the suspension, the loop returns the context's error. -/
theorem runCtxAux_cancelled (max : Int) (delayf : Nat → Int) (ctx : Context)
    (work : Context → Nat → Option GoError × Bool) (fuel retries : Nat)
    (acc : List Int) (e : GoError) (hret : (work ctx retries).2 = true)
    (hbudget : max = -1 ∨ (retries : Int) < max)
    (hfire : ctx.doneAt retries = some e) :
    runCtxAux max delayf ctx work (fuel + 1) retries acc =
      some ⟨some e, retries + 1, acc, TermKind.cancelled⟩ := by
  have hcond : ¬(max ≠ -1 ∧ max ≤ (retries : Int)) := by
    rcases hbudget with h | h
    · simp [h]
    · intro hc
      omega
  simp [runCtxAux, hret, hcond, sleep, hfire]

/-- Loop-step lemma: when work wants a retry, the budget allows it, and the
full delay elapses, the loop suspends for `delayf retries` and continues with
the counter incremented. -/
theorem runCtxAux_step (max : Int) (delayf : Nat → Int) (ctx : Context)
    (work : Context → Nat → Option GoError × Bool) (fuel retries : Nat)
    (acc : List Int) (hret : (work ctx retries).2 = true)
    (hbudget : max = -1 ∨ (retries : Int) < max)
    (hctx : ctx.doneAt retries = none) :
    runCtxAux max delayf ctx work (fuel + 1) retries acc =
      runCtxAux max delayf ctx work fuel (retries + 1)
        (acc ++ [delayf retries]) := by
  have hcond : ¬(max ≠ -1 ∧ max ≤ (retries : Int)) := by
    rcases hbudget with h | h
    · simp [h]
    · intro hc
      omega
  simp [runCtxAux, hret, hcond, sleep, hctx]

/-- Loop-traversal lemma: `k` consecutive retry-and-sleep iterations starting
at counter `r` consume `k` units of fuel, advance the counter to `r + k`, and
record the suspensions `delayf r, …, delayf (r + k - 1)`. -/
theorem runCtxAux_reach (max : Int) (delayf : Nat → Int) (ctx : Context)
    (work : Context → Nat → Option GoError × Bool) (k : Nat) :
    ∀ (r fuel : Nat) (acc : List Int),
      (∀ j, j < k → (work ctx (r + j)).2 = true) →
      (∀ j, j < k → ctx.doneAt (r + j) = none) →
      (∀ j, j < k → (max = -1 ∨ ((r + j : Nat) : Int) < max)) →
      runCtxAux max delayf ctx work (k + fuel) r acc =
        runCtxAux max delayf ctx work fuel (r + k)
          (acc ++ (List.range k).map (fun j => delayf (r + j))) := by
  induction k with
  | zero =>
    intro r fuel acc _ _ _
    simp
  | succ k ih =>
    intro r fuel acc hw hc hb
    have h1 : k + 1 + fuel = k + (fuel + 1) := by omega
    rw [h1, ih r (fuel + 1) acc (fun j hj => hw j (by omega))
      (fun j hj => hc j (by omega)) (fun j hj => hb j (by omega))]
    rw [runCtxAux_step max delayf ctx work fuel (r + k) _
      (hw k (by omega)) (hb k (by omega)) (hc k (by omega))]
    rw [List.range_succ]
    simp only [List.map_append, List.map_cons, List.map_nil, List.append_assoc]
    rfl

/-- With the unlimited sentinel `max = -1`, any terminating run exits either
through the cancellation branch with an error produced by the token, or
through the `!ret` branch with the work's own result; never through the
budget branch. -/
theorem runCtxAux_unlimited (delayf : Nat → Int) (ctx : Context)
    (work : Context → Nat → Option GoError × Bool) :
    ∀ (fuel retries : Nat) (acc : List Int) (r : RunResult),
      runCtxAux (-1) delayf ctx work fuel retries acc = some r →
      UnlimitedOutcome ctx work r := by
  intro fuel
  induction fuel with
  | zero =>
    intro retries acc r h
    simp [runCtxAux] at h
  | succ fuel ih =>
    intro retries acc r h
    rw [runCtxAux] at h
    split at h
    · rename_i hw
      injection h with h
      subst h
      refine ⟨by simp, Or.inr ⟨retries, hw, rfl, rfl⟩⟩
    · split at h
      · rename_i hcond
        exact absurd rfl hcond.1
      · rename_i hw _
        split at h
        · rename_i cerr hfire
          injection h with h
          subst h
          exact ⟨by simp, Or.inl ⟨retries, cerr, hfire, rfl, rfl⟩⟩
        · exact ih (retries + 1) (acc ++ [delayf retries]) r h

/-- With the background context the cancellation branch is unreachable. -/
theorem runCtxAux_background_not_cancelled (max : Int) (delayf : Nat → Int)
    (work : Context → Nat → Option GoError × Bool) :
    ∀ (fuel retries : Nat) (acc : List Int),
      notCancelled (runCtxAux max delayf background work fuel retries acc) =
        true := by
  intro fuel
  induction fuel with
  | zero =>
    intro retries acc
    simp [runCtxAux, notCancelled]
  | succ fuel ih =>
    intro retries acc
    rw [runCtxAux]
    split
    · simp [notCancelled]
    · split
      · simp [notCancelled]
      · split
        · rename_i cerr hfire
          simp [sleep, background] at hfire
        · exact ih (retries + 1) (acc ++ [delayf retries])

/-- C1: with `maxAttempts = m ≥ 0`, work that on every invocation returns a
non-null error with `shouldRetry = true`, and a token that never fires,
`RunCtx` terminates (any fuel of at least `m + 1` loop iterations suffices)
returning the budget-exhausted error that wraps the last work error, after
exactly `m` suspensions and `m + 1` work invocations; the wrapper's message is
prefixed "failed after max retries: " and it unwraps to the last error. -/
theorem C1_budget_exhausted (m : Nat) (delayf : Nat → Int) (ctx : Context)
    (work : Context → Nat → Option GoError × Bool) (errs : Nat → GoError)
    (hwork : ∀ i, work ctx i = (some (errs i), true))
    (hctx : ∀ i, ctx.doneAt i = none) (extra : Nat) :
    RunCtx (m : Int) delayf ctx work (m + (extra + 1)) =
      some ⟨some (GoError.wrap "failed after max retries: " (errs m)), m + 1,
        (List.range m).map delayf, TermKind.budget⟩ ∧
    (GoError.wrap "failed after max retries: " (errs m)).unwrap =
      some (errs m) ∧
    (GoError.wrap "failed after max retries: " (errs m)).message =
      "failed after max retries: " ++ (errs m).message := by
  refine ⟨?_, rfl, rfl⟩
  unfold RunCtx
  rw [runCtxAux_reach (m : Int) delayf ctx work m 0 (extra + 1) []
    (fun j _ => by rw [hwork]) (fun j _ => hctx _)
    (fun j hj => Or.inr (by omega))]
  simp only [Nat.zero_add, List.nil_append]
  rw [runCtxAux_budget (m : Int) delayf ctx work extra m
    ((List.range m).map delayf) (by rw [hwork]) (by omega) (by omega)]
  rw [hwork m]
  simp [wrapMaxRetries]

/-- Witness for C1: `m = 1`, work always failing with error "e", delay 7,
never-firing token; two invocations, one suspension, wrapped error. -/
theorem C1_budget_exhausted_witness :
    RunCtx ((1 : Nat) : Int) (fun _ => 7) background
      (fun _ _ => (some (GoError.mk "e"), true)) (1 + (0 + 1)) =
      some ⟨some (GoError.wrap "failed after max retries: " (GoError.mk "e")),
        1 + 1, (List.range 1).map (fun _ => 7), TermKind.budget⟩ ∧
    (GoError.wrap "failed after max retries: " (GoError.mk "e")).unwrap =
      some (GoError.mk "e") ∧
    (GoError.wrap "failed after max retries: " (GoError.mk "e")).message =
      "failed after max retries: " ++ (GoError.mk "e").message :=
  C1_budget_exhausted 1 (fun _ => 7) background
    (fun _ _ => (some (GoError.mk "e"), true)) (fun _ => GoError.mk "e")
    (fun _ => rfl) (fun _ => rfl) 0

/-- C2: the claim `ConstantDelay(d)` returns exactly `d` fails on the code: the
source keeps the leftover `* time.Millisecond` scaling from the earlier
`int`-of-milliseconds signature, so `ConstantDelay(time.Second)` returns
`time.Second * time.Millisecond` = 10^15 ns (≈ 11.6 days) at every attempt
index, not `time.Second`; the repository's own TestConstantDelay expects
`time.Second`. -/
theorem C2_constant_delay_scaled :
    ConstantDelay Second 0 = 1000000000000000 ∧
    ConstantDelay Second 25 = 1000000000000000 ∧
    (1000000000000000 : Int) ≠ Second := by
  refine ⟨by decide, by decide, by decide⟩

/-- C3: if the token fires during the i-th suspension (all earlier suspensions
ran their full delay, work asked to retry each time, and the budget still
allowed retrying, i.e. `maxAttempts` was not reached), `RunCtx` returns the
token's error verbatim with exactly `i + 1` work invocations — none after the
firing — whatever `maxAttempts` is. -/
theorem C3_cancellation_wins (i : Nat) (maxA : Int) (delayf : Nat → Int)
    (ctx : Context) (work : Context → Nat → Option GoError × Bool)
    (e : GoError)
    (hwork : ∀ j, j ≤ i → (work ctx j).2 = true)
    (hctx : ∀ j, j < i → ctx.doneAt j = none)
    (hbudget : ∀ j, j ≤ i → (maxA = -1 ∨ (j : Int) < maxA))
    (hfire : ctx.doneAt i = some e) (extra : Nat) :
    RunCtx maxA delayf ctx work (i + (extra + 1)) =
      some ⟨some e, i + 1, (List.range i).map delayf,
        TermKind.cancelled⟩ := by
  unfold RunCtx
  rw [runCtxAux_reach maxA delayf ctx work i 0 (extra + 1) []
    (fun j hj => by rw [Nat.zero_add]; exact hwork j (by omega))
    (fun j hj => by rw [Nat.zero_add]; exact hctx j hj)
    (fun j hj => by rw [Nat.zero_add]; exact hbudget j (by omega))]
  simp only [Nat.zero_add, List.nil_append]
  rw [runCtxAux_cancelled maxA delayf ctx work extra i
    ((List.range i).map delayf) e (hwork i (by omega))
    (hbudget i (by omega)) hfire]

/-- Witness for C3: the token completes suspension 0 and fires during
suspension 1; the run ends with the token's error after 2 invocations even
though `maxAttempts = 5` allowed more retries. -/
theorem C3_cancellation_wins_witness :
    RunCtx 5 (fun _ => 3)
      ⟨fun j => if j = 0 then none else some (GoError.mk "context canceled")⟩
      (fun _ _ => (some (GoError.mk "e"), true)) (1 + (0 + 1)) =
      some ⟨some (GoError.mk "context canceled"), 1 + 1,
        (List.range 1).map (fun _ => 3), TermKind.cancelled⟩ :=
  C3_cancellation_wins 1 5 (fun _ => 3)
    ⟨fun j => if j = 0 then none else some (GoError.mk "context canceled")⟩
    (fun _ _ => (some (GoError.mk "e"), true)) (GoError.mk "context canceled")
    (fun _ _ => rfl)
    (fun j hj => by
      have h0 : j = 0 := by omega
      subst h0
      rfl)
    (fun j hj => Or.inr (by omega)) rfl 0

/-- C4: for `k` within the retry budget, work that asks to retry on its first
`k` invocations and returns `(nil, false)` on invocation `k + 1`, with a token
that never fires during those suspensions, makes `RunCtx` return a null error
after suspending exactly `k` times for `delayf 0, …, delayf (k-1)`. -/
theorem C4_success_after_k (k : Nat) (maxA : Int) (delayf : Nat → Int)
    (ctx : Context) (work : Context → Nat → Option GoError × Bool)
    (hmax : maxA = -1 ∨ (k : Int) ≤ maxA)
    (hwork : ∀ j, j < k → (work ctx j).2 = true)
    (hlast : work ctx k = (none, false))
    (hctx : ∀ j, j < k → ctx.doneAt j = none) (extra : Nat) :
    RunCtx maxA delayf ctx work (k + (extra + 1)) =
      some ⟨none, k + 1, (List.range k).map delayf,
        TermKind.returned⟩ := by
  unfold RunCtx
  rw [runCtxAux_reach maxA delayf ctx work k 0 (extra + 1) []
    (fun j hj => by rw [Nat.zero_add]; exact hwork j hj)
    (fun j hj => by rw [Nat.zero_add]; exact hctx j hj)
    (fun j hj => by
      rcases hmax with h | h
      · exact Or.inl h
      · exact Or.inr (by omega))]
  simp only [Nat.zero_add, List.nil_append]
  rw [runCtxAux_returned maxA delayf ctx work extra k
    ((List.range k).map delayf) (by rw [hlast])]
  rw [hlast]

/-- Witness for C4: `k = 1`, budget 5, delay 3; one failing retryable
invocation, one full suspension, then success. -/
theorem C4_success_after_k_witness :
    RunCtx 5 (fun _ => 3) background
      (fun _ i => if i = 0 then (some (GoError.mk "e"), true)
        else (none, false)) (1 + (0 + 1)) =
      some ⟨none, 1 + 1, (List.range 1).map (fun _ => 3),
        TermKind.returned⟩ :=
  C4_success_after_k 1 5 (fun _ => 3) background
    (fun _ i => if i = 0 then (some (GoError.mk "e"), true)
      else (none, false))
    (Or.inr (by omega))
    (fun j hj => by
      have h0 : j = 0 := by omega
      subst h0
      rfl)
    rfl
    (fun _ _ => rfl) 0

/-- C5: if the first invocation returns `(err, false)` — `err` null or not —
`RunCtx` returns after that single invocation with `err` verbatim, zero
suspensions, for every `maxAttempts`; and the outcome does not depend on the
delay schedule at all. -/
theorem C5_non_retryable_immediate (maxA : Int) (delayf delayf' : Nat → Int)
    (ctx : Context) (work : Context → Nat → Option GoError × Bool)
    (h0 : (work ctx 0).2 = false) (extra : Nat) :
    RunCtx maxA delayf ctx work (extra + 1) =
      some ⟨(work ctx 0).1, 1, [], TermKind.returned⟩ ∧
    RunCtx maxA delayf ctx work (extra + 1) =
      RunCtx maxA delayf' ctx work (extra + 1) := by
  unfold RunCtx
  rw [runCtxAux_returned maxA delayf ctx work extra 0 [] h0,
    runCtxAux_returned maxA delayf' ctx work extra 0 [] h0]
  exact ⟨rfl, rfl⟩

/-- Witness for C5: a fatal non-retryable error is returned verbatim after one
invocation, with two different delay schedules giving the same outcome. -/
theorem C5_non_retryable_immediate_witness :
    RunCtx 5 (fun _ => 3) background
      (fun _ _ => (some (GoError.mk "fatal"), false)) (0 + 1) =
      some ⟨((fun (_ : Context) (_ : Nat) =>
          (some (GoError.mk "fatal"), false)) background 0).1, 1, [],
        TermKind.returned⟩ ∧
    RunCtx 5 (fun _ => 3) background
      (fun _ _ => (some (GoError.mk "fatal"), false)) (0 + 1) =
      RunCtx 5 (fun _ => 4) background
        (fun _ _ => (some (GoError.mk "fatal"), false)) (0 + 1) :=
  C5_non_retryable_immediate 5 (fun _ => 3) (fun _ => 4) background
    (fun _ _ => (some (GoError.mk "fatal"), false)) rfl 0

/-- C6: with the unlimited sentinel `maxAttempts = -1`, no terminating run of
`RunCtx` exits through the budget branch, however much fuel (however many
retries); the outcome is the token's error or the work's own non-retryable
result. -/
theorem C6_unlimited_no_budget (delayf : Nat → Int) (ctx : Context)
    (work : Context → Nat → Option GoError × Bool) (fuel : Nat)
    (r : RunResult) (h : RunCtx (-1) delayf ctx work fuel = some r) :
    UnlimitedOutcome ctx work r :=
  runCtxAux_unlimited delayf ctx work fuel 0 [] r h

/-- Witness for C6: an unlimited retrier whose work succeeds at once; the
outcome is characterized as non-budget. -/
theorem C6_unlimited_no_budget_witness :
    UnlimitedOutcome background
      (fun _ _ => ((none : Option GoError), false))
      ⟨none, 1, [], TermKind.returned⟩ :=
  C6_unlimited_no_budget (fun _ => 0) background
    (fun _ _ => ((none : Option GoError), false)) 1
    ⟨none, 1, [], TermKind.returned⟩ rfl

/-- C8: `LinearDelay step` at attempt index `n` returns exactly
`step + n * step`; with `step = 1s`, indices 0, 1, 25 yield 1s, 2s, 26s. -/
theorem C8_linear_delay (step : Int) (n : Nat) :
    LinearDelay step n = step + (n : Int) * step ∧
    LinearDelay Second 0 = Second ∧
    LinearDelay Second 1 = 2 * Second ∧
    LinearDelay Second 25 = 26 * Second := by
  refine ⟨rfl, by decide, by decide, by decide⟩

/-- C9: `Run work` is exactly `RunCtx` on the background (never-firing) token
and the context-ignoring adaptation of `work`; in particular `Run` never
produces an outcome from the cancellation branch. -/
theorem C9_run_refines_runctx (maxA : Int) (delayf : Nat → Int)
    (work : Nat → Option GoError × Bool) (fuel : Nat) :
    Run maxA delayf work fuel =
      RunCtx maxA delayf background (fun _ i => work i) fuel ∧
    notCancelled (Run maxA delayf work fuel) = true :=
  ⟨rfl, runCtxAux_background_not_cancelled maxA delayf
    (fun _ i => work i) fuel 0 []⟩

/-- C10: any `maxAttempts` strictly below `-1` is not an unlimited sentinel:
with `maxAttempts < -1` and a first invocation returning `(err, true)`,
`RunCtx` returns the budget-exhausted wrapper around `err` immediately after
that single invocation, with zero suspensions. -/
theorem C10_strict_sentinel (maxA : Int) (delayf : Nat → Int)
    (ctx : Context) (work : Context → Nat → Option GoError × Bool)
    (e : GoError) (hmax : maxA < -1)
    (h0 : work ctx 0 = (some e, true)) (extra : Nat) :
    RunCtx maxA delayf ctx work (extra + 1) =
      some ⟨some (GoError.wrap "failed after max retries: " e), 1, [],
        TermKind.budget⟩ := by
  unfold RunCtx
  rw [runCtxAux_budget maxA delayf ctx work extra 0 []
    (by rw [h0]) (by omega) (by omega)]
  rw [h0]
  simp [wrapMaxRetries]

/-- Witness for C10: `maxAttempts = -2` behaves as an exhausted budget on the
very first retryable failure. -/
theorem C10_strict_sentinel_witness :
    RunCtx (-2) (fun _ => 3) background
      (fun _ _ => (some (GoError.mk "e"), true)) (0 + 1) =
      some ⟨some (GoError.wrap "failed after max retries: " (GoError.mk "e")),
        1, [], TermKind.budget⟩ :=
  C10_strict_sentinel (-2) (fun _ => 3) background
    (fun _ _ => (some (GoError.mk "e"), true)) (GoError.mk "e")
    (by omega) rfl 0

end Retrier
